import Mathlib

/-!
Verification of the vast-inspector Ad Event Tracking Engine.

The development shallowly embeds the engine's source modules:
  * `src/ui.js` (`Tracker`): macro substitution, the idempotent firing
    ledger, and the network-dispatch primitive;
  * `src/vast-parser.js` (`VASTParser`, `SIMIDBridge`): media-file
    classification and the SIMID control-channel bridge;
  * `src/video-player.js` (`VideoPlayer`): the playback-synchronized
    lifecycle state machine.

JavaScript strings are modelled as Lean `String`/`List Char`; JS numbers
used by the lifecycle machine (playback positions, durations) as `Rat`;
`null`/`undefined`-able values as `Option`; the `Set` of fired URLs as a
`List String` queried by `contains`.
-/

namespace VastInspector

/-! ## Case-insensitive literal replacement

`Tracker.replaceMacros` builds, for every placeholder token, the regex
`new RegExp(token-escaped, 'gi')` and calls `String.prototype.replace`.
For a literal token this scans left to right, replaces each
case-insensitive occurrence, and never rescans the replacement text.
The `i` flag canonicalizes ASCII letters (the tokens are pure ASCII and
non-ASCII characters never canonicalize to ASCII in a non-`u` regex), so
matching compares `Char.toLower` images. -/

/-- One character of case-insensitive matching: the `i`-flag canonical form. -/
def lowChar (c : Char) : Char := c.toLower

/-- Does the literal pattern `pat` match a prefix of `s`, case-insensitively? -/
def ciMatchAt : List Char → List Char → Bool
  | [], _ => true
  | _ :: _, [] => false
  | p :: ps, c :: cs => (lowChar p == lowChar c) && ciMatchAt ps cs

/-- Does `pat` occur case-insensitively anywhere in `s`? -/
def ciOccurs (pat : List Char) : List Char → Bool
  | [] => ciMatchAt pat []
  | c :: cs => ciMatchAt pat (c :: cs) || ciOccurs pat cs

/-- Fuelled scanner for `String.prototype.replace` with a `gi` literal
regex: at each position, if the token matches (case-insensitively) emit
the replacement and resume after the match, else emit the character.
Fuel is the number of scan steps; `replaceAllCI` supplies `s.length`,
which always suffices. -/
def replaceAllCIGo (pat v : List Char) : Nat → List Char → List Char
  | 0, s => s
  | _ + 1, [] => []
  | fuel + 1, c :: cs =>
    if pat ≠ [] ∧ ciMatchAt pat (c :: cs) then
      v ++ replaceAllCIGo pat v fuel (List.drop (pat.length - 1) cs)
    else
      c :: replaceAllCIGo pat v fuel cs

/-- `s.replace(new RegExp(escape(pat), 'gi'), v)` for a literal token `pat`. -/
def replaceAllCI (pat v s : List Char) : List Char :=
  replaceAllCIGo pat v s.length s

/-- `true` when no character of `s` can begin a bracketed macro token:
every macro token starts with a literal `[`. -/
def noLB (s : List Char) : Bool := s.all (fun c => !(lowChar c == '['))

theorem replaceAllCIGo_fuel_irrel (pat v : List Char) :
    ∀ f1 : Nat, ∀ s : List Char, ∀ f2 : Nat, s.length ≤ f1 → s.length ≤ f2 →
      replaceAllCIGo pat v f1 s = replaceAllCIGo pat v f2 s := by
  intro f1
  induction f1 with
  | zero =>
    intro s f2 h1 _
    have hs : s = [] := by
      cases s with
      | nil => rfl
      | cons c cs => simp at h1
    subst hs
    cases f2 <;> simp [replaceAllCIGo]
  | succ f ih =>
    intro s f2 h1 h2
    cases s with
    | nil => cases f2 <;> simp [replaceAllCIGo]
    | cons c cs =>
      cases f2 with
      | zero => simp at h2
      | succ f2' =>
        simp only [replaceAllCIGo]
        by_cases hm : pat ≠ [] ∧ ciMatchAt pat (c :: cs)
        · simp only [if_pos hm]
          have hlen : (List.drop (pat.length - 1) cs).length ≤ f := by
            have := List.length_drop (pat.length - 1) cs
            simp only [List.length_cons] at h1
            omega
          have hlen2 : (List.drop (pat.length - 1) cs).length ≤ f2' := by
            have := List.length_drop (pat.length - 1) cs
            simp only [List.length_cons] at h2
            omega
          rw [ih _ _ hlen hlen2]
        · simp only [if_neg hm]
          have hlen : cs.length ≤ f := by simp only [List.length_cons] at h1; omega
          have hlen2 : cs.length ≤ f2' := by simp only [List.length_cons] at h2; omega
          rw [ih _ _ hlen hlen2]

theorem replaceAllCI_nil (pat v : List Char) : replaceAllCI pat v [] = [] := rfl

/-- The scan equation at a cons cell, with the fuel hidden. -/
theorem replaceAllCI_cons (pat v : List Char) (c : Char) (cs : List Char) :
    replaceAllCI pat v (c :: cs) =
      if pat ≠ [] ∧ ciMatchAt pat (c :: cs) then
        v ++ replaceAllCI pat v (List.drop (pat.length - 1) cs)
      else
        c :: replaceAllCI pat v cs := by
  show replaceAllCIGo pat v (cs.length + 1) (c :: cs) = _
  simp only [replaceAllCIGo]
  by_cases hm : pat ≠ [] ∧ ciMatchAt pat (c :: cs)
  · simp only [if_pos hm]
    have h1 : (List.drop (pat.length - 1) cs).length ≤ cs.length := by
      have := List.length_drop (pat.length - 1) cs; omega
    rw [replaceAllCIGo_fuel_irrel pat v cs.length _ _ h1 le_rfl]
    rfl
  · simp only [if_neg hm]
    rfl

theorem ciMatchAt_false_of_noLB_head {ps cs : List Char} {c : Char}
    (h : (!(lowChar c == '[')) = true) : ciMatchAt ('[' :: ps) (c :: cs) = false := by
  have hlb : lowChar '[' = '[' := by decide
  simp only [ciMatchAt, hlb]
  have : (('[' : Char) == lowChar c) = false := by
    cases hbe : (('[' : Char) == lowChar c)
    · rfl
    · exfalso
      have := eq_of_beq hbe
      simp [← this] at h
  simp [this]

/-- Scanning a segment that contains no `[` passes it through unchanged
and continues with the rest of the string. -/
theorem replaceAllCI_append_noLB {ps : List Char} (v : List Char) :
    ∀ a s : List Char, noLB a = true →
      replaceAllCI ('[' :: ps) v (a ++ s) = a ++ replaceAllCI ('[' :: ps) v s := by
  intro a
  induction a with
  | nil => intro s _; simp
  | cons c a2 ih =>
    intro s h
    simp only [noLB, List.all_cons, Bool.and_eq_true] at h
    rw [List.cons_append, replaceAllCI_cons]
    have hm : ciMatchAt ('[' :: ps) (c :: (a2 ++ s)) = false :=
      ciMatchAt_false_of_noLB_head h.1
    rw [if_neg (by simp [hm])]
    rw [ih s h.2]
    rfl

/-- A string with no `[` is left entirely unchanged. -/
theorem replaceAllCI_noLB {ps : List Char} (v : List Char) (s : List Char)
    (h : noLB s = true) : replaceAllCI ('[' :: ps) v s = s := by
  have := @replaceAllCI_append_noLB ps v s [] h
  simpa [replaceAllCI_nil] using this

/-- A failed case-insensitive match that is decided inside `t` stays
failed whatever follows `t`. -/
theorem ciMatchAt_append_false :
    ∀ (t pat rest : List Char), ciMatchAt (pat.take t.length) t = false →
      ciMatchAt pat (t ++ rest) = false := by
  intro t
  induction t with
  | nil => intro pat rest h; simp [ciMatchAt] at h
  | cons c cs ih =>
    intro pat rest h
    cases pat with
    | nil => simp [ciMatchAt] at h
    | cons p pat2 =>
      simp only [List.length_cons, List.take_succ_cons, ciMatchAt,
        Bool.and_eq_false_iff] at h
      rcases h with h | h
      · simp [List.cons_append, ciMatchAt, h]
      · simp [List.cons_append, ciMatchAt, ih pat2 rest h]

/-- A successful case-insensitive match that fits inside `t` persists
whatever follows `t`. -/
theorem ciMatchAt_append_true :
    ∀ (pat t rest : List Char), ciMatchAt pat t = true → pat.length ≤ t.length →
      ciMatchAt pat (t ++ rest) = true := by
  intro pat
  induction pat with
  | nil => intro t rest _ _; simp [ciMatchAt]
  | cons p pat2 ih =>
    intro t rest h hlen
    cases t with
    | nil => simp [ciMatchAt] at h
    | cons c cs =>
      simp only [ciMatchAt, Bool.and_eq_true] at h
      simp only [List.length_cons, Nat.succ_le_succ_iff] at hlen
      simp [List.cons_append, ciMatchAt, h.1, ih cs rest h.2 hlen]

/-- A case-insensitive occurrence of the whole token is replaced by `v`
and scanning resumes after it (no rescan of the replacement). -/
theorem replaceAllCI_consume {pat : List Char} (v : List Char) (t rest : List Char)
    (hne : pat ≠ []) (hlen : t.length = pat.length)
    (hm : ciMatchAt pat (t ++ rest) = true) :
    replaceAllCI pat v (t ++ rest) = v ++ replaceAllCI pat v rest := by
  cases t with
  | nil =>
    exfalso
    apply hne
    cases pat with
    | nil => rfl
    | cons p ps => simp at hlen
  | cons c cs =>
    rw [List.cons_append, replaceAllCI_cons]
    rw [if_pos ⟨hne, by rw [← List.cons_append]; exact hm⟩]
    have hdrop : pat.length - 1 = cs.length := by
      simp only [List.length_cons] at hlen
      omega
    rw [hdrop, List.drop_left]

/-- A string in which a token does not occur case-insensitively is left
unchanged by replacement with that token. -/
theorem replaceAllCI_of_not_occurs (pat v : List Char) :
    ∀ s, ciOccurs pat s = false → replaceAllCI pat v s = s := by
  intro s
  induction s with
  | nil => intro _; exact replaceAllCI_nil pat v
  | cons c cs ih =>
    intro h
    simp only [ciOccurs, Bool.or_eq_false_iff] at h
    rw [replaceAllCI_cons, if_neg (by simp [h.1]), ih h.2]

/-- Folding a substitution table over a string in which no table token
occurs leaves the string unchanged. -/
theorem foldl_replace_of_no_occurs :
    ∀ (table : List (List Char × List Char)) (s : List Char),
      (table.all fun mv => !(ciOccurs mv.1 s)) = true →
      table.foldl (fun acc mv => replaceAllCI mv.1 mv.2 acc) s = s := by
  intro table
  induction table with
  | nil => intro s _; rfl
  | cons mv rest ih =>
    intro s h
    simp only [List.all_cons, Bool.and_eq_true, Bool.not_eq_true'] at h
    simp only [List.foldl_cons]
    rw [replaceAllCI_of_not_occurs mv.1 mv.2 s h.1]
    exact ih s (by simp only [List.all_eq_true, Bool.not_eq_true']
                   have h2 := h.2
                   simp only [List.all_eq_true, Bool.not_eq_true'] at h2
                   exact h2)

/-- Pass over a string of the shape `u1 [tok1] u2 [tok2] u3` when the
scanned token matches at neither bracket. -/
theorem replaceAllCI_pass_two_tokens {ps : List Char} (v : List Char)
    (u1 t1 u2 t2 u3 : List Char)
    (h1 : noLB u1 = true) (ht1 : noLB t1 = true) (h2 : noLB u2 = true)
    (ht2 : noLB t2 = true) (h3 : noLB u3 = true)
    (hm1 : ciMatchAt ('[' :: ps) ('[' :: (t1 ++ (u2 ++ '[' :: (t2 ++ u3)))) = false)
    (hm2 : ciMatchAt ('[' :: ps) ('[' :: (t2 ++ u3)) = false) :
    replaceAllCI ('[' :: ps) v (u1 ++ '[' :: (t1 ++ (u2 ++ '[' :: (t2 ++ u3)))) =
      u1 ++ '[' :: (t1 ++ (u2 ++ '[' :: (t2 ++ u3))) := by
  rw [replaceAllCI_append_noLB v u1 _ h1]
  refine congrArg (fun x => u1 ++ x) ?_
  rw [replaceAllCI_cons, if_neg (by simp [hm1])]
  refine congrArg (fun x => '[' :: x) ?_
  rw [replaceAllCI_append_noLB v t1 _ ht1]
  refine congrArg (fun x => t1 ++ x) ?_
  rw [replaceAllCI_append_noLB v u2 _ h2]
  refine congrArg (fun x => u2 ++ x) ?_
  rw [replaceAllCI_cons, if_neg (by simp [hm2])]
  refine congrArg (fun x => '[' :: x) ?_
  rw [replaceAllCI_append_noLB v t2 _ ht2]
  refine congrArg (fun x => t2 ++ x) ?_
  exact replaceAllCI_noLB v u3 h3

/-- Replace both occurrences in a string of the shape
`u1 [tok] u2 [tok] u3` when the scanned token matches at both brackets:
each occurrence becomes the same replacement value `v`. -/
theorem replaceAllCI_fire_two_tokens {ps : List Char} (v : List Char)
    (u1 t1 u2 t2 u3 : List Char)
    (h1 : noLB u1 = true) (h2 : noLB u2 = true) (h3 : noLB u3 = true)
    (hl1 : t1.length = ps.length) (hl2 : t2.length = ps.length)
    (hm1 : ciMatchAt ('[' :: ps) ('[' :: t1) = true)
    (hm2 : ciMatchAt ('[' :: ps) ('[' :: t2) = true) :
    replaceAllCI ('[' :: ps) v (u1 ++ '[' :: (t1 ++ (u2 ++ '[' :: (t2 ++ u3)))) =
      u1 ++ (v ++ (u2 ++ (v ++ u3))) := by
  rw [replaceAllCI_append_noLB v u1 _ h1]
  refine congrArg (fun x => u1 ++ x) ?_
  have e1 : ('[' :: (t1 ++ (u2 ++ '[' :: (t2 ++ u3)))) =
      ('[' :: t1) ++ (u2 ++ '[' :: (t2 ++ u3)) := by simp
  rw [e1, replaceAllCI_consume v ('[' :: t1) (u2 ++ '[' :: (t2 ++ u3))
    (by simp) (by simp [hl1])
    (ciMatchAt_append_true _ _ _ hm1 (by simp [hl1]))]
  refine congrArg (fun x => v ++ x) ?_
  rw [replaceAllCI_append_noLB v u2 _ h2]
  refine congrArg (fun x => u2 ++ x) ?_
  have e2 : ('[' :: (t2 ++ u3)) = ('[' :: t2) ++ u3 := by simp
  rw [e2, replaceAllCI_consume v ('[' :: t2) u3
    (by simp) (by simp [hl2])
    (ciMatchAt_append_true _ _ _ hm2 (by simp [hl2]))]
  refine congrArg (fun x => v ++ x) ?_
  exact replaceAllCI_noLB v u3 h3

/-! ## Macro Substitution Engine (`Tracker.replaceMacros`, src/ui.js)

The substitution table is the object literal built at the top of
`replaceMacros`; `Object.entries` enumerates it in insertion order.
`Date.now()` and the three `Math.floor(Math.random() * 1000000000)`
draws are evaluated once per call, when the object literal is built, and
are modelled as the fields of a `RandomDraws` value supplied per call.
Browser environment reads (`navigator.userAgent`, `window.location`)
are the fields of `PageEnv`. -/

/-- Hexadecimal digit, upper case, as produced by `encodeURIComponent`. -/
def hexDigit (n : Nat) : Char :=
  if n < 10 then Char.ofNat (48 + n) else Char.ofNat (55 + n)

/-- UTF-8 encoding of one character, as a list of byte values. -/
def utf8Bytes (c : Char) : List Nat :=
  let n := c.toNat
  if n < 128 then [n]
  else if n < 2048 then [192 + n / 64, 128 + n % 64]
  else if n < 65536 then [224 + n / 4096, 128 + (n / 64) % 64, 128 + n % 64]
  else [240 + n / 262144, 128 + (n / 4096) % 64, 128 + (n / 64) % 64, 128 + n % 64]

/-- Characters `encodeURIComponent` leaves unescaped. -/
def uriUnreserved (c : Char) : Bool :=
  (('A' ≤ c && c ≤ 'Z') || ('a' ≤ c && c ≤ 'z') || ('0' ≤ c && c ≤ '9')
    || c == '-' || c == '_' || c == '.' || c == '!' || c == '~'
    || c == '*' || c == '\x27' || c == '(' || c == ')')

/-- JavaScript `encodeURIComponent`: percent-escape every UTF-8 byte of
every character outside the unreserved set. -/
def encodeURIComponent (s : String) : String :=
  ⟨s.data.flatMap fun c =>
    if uriUnreserved c then [c]
    else (utf8Bytes c).flatMap fun b => ['%', hexDigit (b / 16), hexDigit (b % 16)]⟩

/-- JavaScript `x || d` for an optional string `x`: `null`/`undefined`
and the empty string are falsy. -/
def jsOr (o : Option String) (d : String) : String :=
  match o with
  | none => d
  | some s => if s == "" then d else s

/-- JavaScript `x || d` for a plain string. -/
def jsOrStr (s d : String) : String := if s == "" then d else s

/-- JavaScript `x || null` for an optional string. -/
def jsOrNull (o : Option String) : Option String :=
  match o with
  | none => none
  | some s => if s == "" then none else some s

/-- The `context` argument of `replaceMacros` (`{}` by default). -/
structure MacroContext where
  videoTime : Option String := none
  assetURI : Option String := none
  playerWidth : Option String := none
  playerHeight : Option String := none
  playerSize : Option String := none

/-- The empty `{}` context used by every `src/video-player.js` call site. -/
def emptyContext : MacroContext := {}

/-- Browser environment values read while building the macro table. -/
structure PageEnv where
  userAgent : String := ""
  href : String := ""
  hostname : String := ""

/-- The per-call draws of `Date.now()` and `Math.random()`, one per
table entry that generates a fresh number. -/
structure RandomDraws where
  timestamp : Nat := 0
  cacheBusters : Nat := 0
  cacheBuster : Nat := 0
  random : Nat := 0

/-- The `macros` object literal of `Tracker.replaceMacros`, in insertion
order, with each value already stringified as `String.replace` does. -/
def macroTable (ctx : MacroContext) (env : PageEnv) (rng : RandomDraws) :
    List (List Char × List Char) :=
  [ ("[TIMESTAMP]".data, (Nat.repr rng.timestamp).data),
    ("[CACHEBUSTERS]".data, (Nat.repr rng.cacheBusters).data),
    ("[CACHEBUSTER]".data, (Nat.repr rng.cacheBuster).data),
    ("[CONTENTPLAYHEAD]".data, (jsOr ctx.videoTime "00:00:00.000").data),
    ("[ASSETURI]".data, (jsOr ctx.assetURI "").data),
    ("[DEVICEID]".data, "".data),
    ("[DEVICEUA]".data, (encodeURIComponent (jsOrStr env.userAgent "")).data),
    ("[LIMITADTRACKING]".data, "0".data),
    ("[PLAYERNAME]".data, "VAST-Inspector".data),
    ("[PLAYERWIDTH]".data, (jsOr ctx.playerWidth "").data),
    ("[PLAYERHEIGHT]".data, (jsOr ctx.playerHeight "").data),
    ("[PLAYERSIZE]".data, (jsOr ctx.playerSize "").data),
    ("[RANDOM]".data, (Nat.repr rng.random).data),
    ("[PAGEURL]".data, (encodeURIComponent env.href).data),
    ("[DOMAIN]".data, (encodeURIComponent env.hostname).data) ]

/-- `Tracker.replaceMacros(url, context)`: `if (!url) return url;` then
one case-insensitive replace-all per table entry, in table order. -/
def replaceMacros (url : String) (ctx : MacroContext) (env : PageEnv)
    (rng : RandomDraws) : String :=
  if url == "" then url
  else ⟨(macroTable ctx env rng).foldl (fun acc mv => replaceAllCI mv.1 mv.2 acc) url.data⟩

/-! ## Firing Ledger (`Tracker`, src/ui.js)

`firedTrackers` is a `Set` of raw URL strings, `trackingLog` the
append-only audit log (newest entry first, as `push` order reversed is
irrelevant; we prepend).  `sendTracking` resolves `true` from all three
of its callbacks (`img.onload`, `img.onerror`, the 5000 ms timeout); the
reject path of its promise is never invoked, which we keep visible by
giving it an `Except` result. -/

/-- The `status` field of a log entry. -/
inductive FireStatus where
  | success
  | failed
deriving DecidableEq, Repr

/-- One entry of `Tracker.trackingLog`.  The success branch logs the
processed URL under `url` and the raw URL under `originalURL`; the
failure branch logs the raw URL under `url` and no `originalURL`. -/
structure FiringRecord where
  url : String
  originalURL : Option String
  ttype : String
  event : Option String
  status : FireStatus
  errorMessage : Option String
deriving DecidableEq, Repr

/-- The mutable state of a `Tracker` instance. -/
structure TrackerState where
  firedTrackers : List String
  trackingLog : List FiringRecord
deriving DecidableEq, Repr

/-- `new Tracker()`. -/
def initTracker : TrackerState := { firedTrackers := [], trackingLog := [] }

/-- How the tracking pixel settled: image load, image error (the normal
1×1-pixel case), or the 5-second timeout. -/
inductive DispatchOutcome where
  | imageLoaded
  | imageErrored
  | timedOut
deriving DecidableEq, Repr

/-- `Tracker.sendTracking(url)`: every callback resolves `true`; the
promise has no path that rejects. -/
def sendTracking (o : DispatchOutcome) : Except String Bool :=
  match o with
  | .imageLoaded => .ok true
  | .imageErrored => .ok true
  | .timedOut => .ok true

/-- `Tracker.fireTracker(url, type, event, context)`.  Returns the
boolean result, the new tracker state, and the list of URLs handed to
the network (the `img.src` assignments). -/
def fireTracker (st : TrackerState) (url : String) (ttype : String)
    (event : Option String) (ctx : MacroContext) (env : PageEnv)
    (rng : RandomDraws) (o : DispatchOutcome) :
    Bool × TrackerState × List String :=
  if url == "" || st.firedTrackers.contains url then
    (false, st, [])
  else
    let processedURL := replaceMacros url ctx env rng
    match sendTracking o with
    | .ok _ =>
      (true,
        { firedTrackers := url :: st.firedTrackers,
          trackingLog :=
            { url := processedURL, originalURL := some url, ttype := ttype,
              event := event, status := .success, errorMessage := none }
              :: st.trackingLog },
        [processedURL])
    | .error e =>
      (false,
        { st with trackingLog :=
            { url := url, originalURL := none, ttype := ttype,
              event := event, status := .failed, errorMessage := some e }
              :: st.trackingLog },
        [processedURL])

/-- An entry of the parser's `trackingURLs.impressions` bucket. -/
structure Impression where
  url : String
  id : Option String
deriving DecidableEq, Repr

/-- An entry of the parser's `trackingURLs.clicks` bucket. -/
structure ClickEntry where
  ctype : Option String
  url : String
deriving DecidableEq, Repr

/-- An entry of the parser's `trackingURLs.tracking` bucket. -/
structure TrackingEntry where
  event : String
  url : String
  fired : Bool
deriving DecidableEq, Repr

/-- `Tracker.fireImpressions(impressionURLs, context)`: one
`fireTracker(url, 'impression')` per entry. -/
def fireImpressions (st : TrackerState) (impressionURLs : List Impression)
    (ctx : MacroContext) (env : PageEnv) (rng : RandomDraws)
    (o : DispatchOutcome) : TrackerState × List String :=
  impressionURLs.foldl
    (fun acc imp =>
      let r := fireTracker acc.1 imp.url "impression" none ctx env rng o
      (r.2.1, acc.2 ++ r.2.2))
    (st, [])

/-- `Tracker.fireClicks(clickURLs, context)`: one
`fireTracker(url, 'click', click.type || null)` per entry. -/
def fireClicks (st : TrackerState) (clickURLs : List ClickEntry)
    (ctx : MacroContext) (env : PageEnv) (rng : RandomDraws)
    (o : DispatchOutcome) : TrackerState × List String :=
  clickURLs.foldl
    (fun acc click =>
      let r := fireTracker acc.1 click.url "click" (jsOrNull click.ctype) ctx env rng o
      (r.2.1, acc.2 ++ r.2.2))
    (st, [])

/-- `Tracker.fireEventTrackers(event, trackingURLs, context)`: filter the
bucket by event name, then one `fireTracker(url, 'event', event)` each. -/
def fireEventTrackers (st : TrackerState) (event : String)
    (trackingURLs : List TrackingEntry) (ctx : MacroContext) (env : PageEnv)
    (rng : RandomDraws) (o : DispatchOutcome) : TrackerState × List String :=
  (trackingURLs.filter (fun t => t.event == event)).foldl
    (fun acc t =>
      let r := fireTracker acc.1 t.url "event" (some event) ctx env rng o
      (r.2.1, acc.2 ++ r.2.2))
    (st, [])

/-- `Tracker.hasFired(url)`. -/
def hasFired (st : TrackerState) (url : String) : Bool :=
  st.firedTrackers.contains url

/-- `Tracker.reset()`. -/
def trackerReset (_st : TrackerState) : TrackerState :=
  { firedTrackers := [], trackingLog := [] }

/-! ## Document model and media-file classification
(`VASTParser.parseLinear`, src/vast-parser.js)

`parseLinear` classifies each `<MediaFile>` once, at extraction time,
from its `apiFramework` and `type` attributes.  The released parser in
`src/vast-parser.js` computes `isVPAID`; the SIMID flags consumed by the
player's `selectMediaFile` are computed by classification code not
present under `src/` and are modelled from the spec below. -/

/-- The attributes and text content of one `<MediaFile>` element, as
`getAttribute`/`textContent.trim()` deliver them. -/
structure RawMediaFileAttrs where
  id : Option String := none
  delivery : Option String := none
  mtype : Option String := none
  width : Option String := none
  height : Option String := none
  codec : Option String := none
  bitrate : Option String := none
  apiFramework : Option String := none
  url : String := ""
deriving DecidableEq, Repr

/-- Modelled from the spec: the *is-interactive* classification, whose
computing code is not in `src/` (only `selectMediaFile` and the UI read
the flag).  Per the spec, a file is is-interactive if its capability tag
contains, case-insensitively, the modern-interactive token `SIMID`. -/
def isInteractiveTag (apiFramework : Option String) : Bool :=
  match jsOrNull apiFramework with
  | none => false
  | some s => ciOccurs "simid".data s.data

/-- Modelled from the spec: the SIMID detection flag, whose computing
code is not in `src/` (`docs/SIMID-SUPPORT.md` documents it as
`apiFramework === 'SIMID' || apiFramework.toLowerCase().includes('simid')`). -/
def isSIMIDTag (apiFramework : Option String) : Bool :=
  match jsOrNull apiFramework with
  | none => false
  | some s => s == "SIMID" || ciOccurs "simid".data s.data

/-- One entry of `linear.mediaFiles` after extraction. -/
structure MediaFile where
  id : Option String
  delivery : String
  mtype : Option String
  width : Option String
  height : Option String
  codec : Option String
  bitrate : Option String
  apiFramework : Option String
  isVPAID : Bool
  isSIMID : Bool
  isInteractive : Bool
  url : String
deriving DecidableEq, Repr

/-- The per-`<MediaFile>` body of `parseLinear` (src/vast-parser.js,
lines 250-270): VPAID is detected from an exact `apiFramework` match or
a legacy executable mime type; the SIMID flags are the spec-modelled
classification above. -/
def parseMediaFile (mf : RawMediaFileAttrs) : MediaFile :=
  let apiFramework := mf.apiFramework
  let t := jsOrNull mf.mtype
  let isVPAID := apiFramework == some "VPAID"
    || t == some "application/x-shockwave-flash"
    || t == some "application/javascript"
  { id := jsOrNull mf.id,
    delivery := jsOr mf.delivery "progressive",
    mtype := t,
    width := jsOrNull mf.width,
    height := jsOrNull mf.height,
    codec := jsOrNull mf.codec,
    bitrate := jsOrNull mf.bitrate,
    apiFramework := jsOrNull apiFramework,
    isVPAID := isVPAID,
    isSIMID := isSIMIDTag apiFramework,
    isInteractive := isInteractiveTag apiFramework,
    url := mf.url }

/-- The flattened `trackingURLs` catalog built by the parser. -/
structure TrackingURLs where
  impressions : List Impression
  clicks : List ClickEntry
  tracking : List TrackingEntry
  errors : List String
deriving DecidableEq, Repr

/-- `linear.data` as far as the player reads it. -/
structure LinearData where
  duration : Option String
  mediaFiles : List MediaFile
deriving DecidableEq, Repr

/-- A parsed `<Creative>`. -/
structure Creative where
  id : Option String
  ctype : Option String
  data : Option LinearData
deriving DecidableEq, Repr

/-- A parsed `<InLine>`. -/
structure InlineAd where
  adTitle : Option String
  creatives : List Creative
deriving DecidableEq, Repr

/-- A parsed `<Ad>`. -/
structure AdUnit where
  id : String
  adType : Option String
  inlineData : Option InlineAd
deriving DecidableEq, Repr

/-- The parser's `vastData`. -/
structure VastData where
  ads : List AdUnit
deriving DecidableEq, Repr

/-! ## Media-file selection

`VideoPlayer.selectMediaFile` exists in two revisions: the plain one in
`src/video-player.js` (preferred mime types, then first file), and the
SIMID-aware one (src/unnamed/part_002, lines 101-125) that first
prioritizes an interactive SIMID file.  `canPlayType` is the external
media collaborator, abstracted as a predicate on mime types. -/

/-- The `preferredTypes` list of `selectMediaFile`. -/
def preferredTypes : List String := ["video/mp4", "video/webm", "video/ogg"]

/-- The `for (const type of preferredTypes)` loop body. -/
def selectMediaFileLoop (canPlay : String → Bool) (mediaFiles : List MediaFile) :
    List String → Option MediaFile
  | [] => mediaFiles.head?
  | t :: ts =>
    match mediaFiles.find? (fun mf => mf.mtype == some t) with
    | some f => if canPlay t then some f else selectMediaFileLoop canPlay mediaFiles ts
    | none => selectMediaFileLoop canPlay mediaFiles ts

/-- `VideoPlayer.selectMediaFile(mediaFiles)` (src/video-player.js). -/
def selectMediaFile (canPlay : String → Bool) (mediaFiles : List MediaFile) :
    Option MediaFile :=
  selectMediaFileLoop canPlay mediaFiles preferredTypes

/-- `VideoPlayer.selectMediaFile(mediaFiles)` of the SIMID-aware player
(src/unnamed/part_002): an interactive SIMID file, when present, is
returned before the mime-type preference loop runs. -/
def selectMediaFileSIMID (canPlay : String → Bool) (mediaFiles : List MediaFile) :
    Option MediaFile :=
  match mediaFiles.find? (fun mf => mf.isSIMID && mf.isInteractive) with
  | some simidFile => some simidFile
  | none => selectMediaFileLoop canPlay mediaFiles preferredTypes

/-! ## Lifecycle State Machine (`VideoPlayer`, src/video-player.js)

The player's mutable state is the `quartilesFired` one-shot flag record
plus the loaded ad model and catalog.  Handlers consume the media
surface's telemetry (current time, duration, `ended`, `muted`) as
arguments and call into the shared `Tracker`.  Every call site of this
revision passes no context object, so `fireEventTrackers` runs with the
default `{}` context.  Each handler returns the new combined state plus
the list of lifecycle event names whose firing branch it took. -/

/-- The `quartilesFired` record. -/
structure QuartilesFired where
  start : Bool
  firstQuartile : Bool
  midpoint : Bool
  thirdQuartile : Bool
  complete : Bool
deriving DecidableEq, Repr

/-- All flags false, as (re)initialized by the constructor, `loadAd`
and `reset`. -/
def initQuartiles : QuartilesFired :=
  { start := false, firstQuartile := false, midpoint := false,
    thirdQuartile := false, complete := false }

/-- The player-owned state. -/
structure PlayerState where
  vastData : Option VastData
  trackingURLs : Option TrackingURLs
  quartilesFired : QuartilesFired
deriving DecidableEq, Repr

/-- Player plus the shared tracker: the engine state driven by
playback telemetry. -/
structure SystemState where
  player : PlayerState
  tracker : TrackerState
deriving DecidableEq, Repr

/-- `new VideoPlayer(video, tracker)` with a fresh `Tracker`. -/
def initialSystem : SystemState :=
  { player := { vastData := none, trackingURLs := none, quartilesFired := initQuartiles },
    tracker := initTracker }

/-- `VideoPlayer.loadAd(vastData, trackingURLs)`: store the model, reset
the one-shot flags, locate the first inline ad, its linear creative and
a playable media file, then fire all impressions.  Returns the new
state, the boolean result, and the dispatched URLs. -/
def loadAd (sys : SystemState) (vastData : VastData) (trackingURLs : TrackingURLs)
    (canPlay : String → Bool) (env : PageEnv) (rng : RandomDraws)
    (o : DispatchOutcome) : SystemState × Bool × List String :=
  let player0 : PlayerState :=
    { vastData := some vastData, trackingURLs := some trackingURLs,
      quartilesFired := initQuartiles }
  let sys0 : SystemState := { player := player0, tracker := sys.tracker }
  match vastData.ads.find? (fun a => a.adType == some "inline") with
  | none => (sys0, false, [])
  | some ad =>
    match ad.inlineData with
    | none => (sys0, false, [])
    | some inl =>
      match inl.creatives.find? (fun c => c.ctype == some "linear") with
      | none => (sys0, false, [])
      | some creative =>
        match creative.data with
        | none => (sys0, false, [])
        | some lin =>
          match selectMediaFile canPlay lin.mediaFiles with
          | none => (sys0, false, [])
          | some _mediaFile =>
            let r := fireImpressions sys0.tracker trackingURLs.impressions
              emptyContext env rng o
            ({ player := player0, tracker := r.1 }, true, r.2)

/-- `VideoPlayer.onPlay()`: fire `start` once, guarded by the flag. -/
def onPlay (sys : SystemState) (env : PageEnv) (rng : RandomDraws)
    (o : DispatchOutcome) : SystemState × List String :=
  match sys.player.trackingURLs with
  | none => (sys, [])
  | some catalog =>
    if !sys.player.quartilesFired.start then
      let r := fireEventTrackers sys.tracker "start" catalog.tracking
        emptyContext env rng o
      ({ player := { sys.player with
            quartilesFired := { sys.player.quartilesFired with start := true } },
         tracker := r.1 },
       ["start"])
    else (sys, [])

/-- `VideoPlayer.onPause()`: fire `pause`, unguarded, unless the pause
was caused by the media reaching its end (`this.video.ended`). -/
def onPause (sys : SystemState) (ended : Bool) (env : PageEnv)
    (rng : RandomDraws) (o : DispatchOutcome) : SystemState × List String :=
  match sys.player.trackingURLs with
  | none => (sys, [])
  | some catalog =>
    if !ended then
      let r := fireEventTrackers sys.tracker "pause" catalog.tracking
        emptyContext env rng o
      ({ player := sys.player, tracker := r.1 }, ["pause"])
    else (sys, [])

/-- `VideoPlayer.onEnded()`: fire `complete` once, guarded by the flag. -/
def onEnded (sys : SystemState) (env : PageEnv) (rng : RandomDraws)
    (o : DispatchOutcome) : SystemState × List String :=
  match sys.player.trackingURLs with
  | none => (sys, [])
  | some catalog =>
    if !sys.player.quartilesFired.complete then
      let r := fireEventTrackers sys.tracker "complete" catalog.tracking
        emptyContext env rng o
      ({ player := { sys.player with
            quartilesFired := { sys.player.quartilesFired with complete := true } },
         tracker := r.1 },
       ["complete"])
    else (sys, [])

/-- Rational division, written to stay computable in the kernel
(`Rat.inv` is irreducible); `ratDiv_eq_div` shows it is ordinary
division. -/
def ratDiv (a b : Rat) : Rat := Rat.divInt (a.num * b.den) (b.num * a.den)

theorem ratDiv_eq_div (a b : Rat) : ratDiv a b = a / b := by
  by_cases hb : b = 0
  · subst hb
    simp [ratDiv]
  · have hbn : (b.num : ℚ) ≠ 0 := Int.cast_ne_zero.mpr (Rat.num_ne_zero.mpr hb)
    have had : (a.den : ℚ) ≠ 0 := Nat.cast_ne_zero.mpr a.den_nz
    have hbd : (b.den : ℚ) ≠ 0 := Nat.cast_ne_zero.mpr b.den_nz
    rw [ratDiv, Rat.divInt_eq_div]
    push_cast
    conv_rhs => rw [← Rat.num_div_den a, ← Rat.num_div_den b]
    field_simp
    left
    ring

/-- The quartile thresholds `0.25`, `0.5`, `0.75` of `onTimeUpdate`. -/
def q25 : Rat := mkRat 25 100
def q50 : Rat := mkRat 50 100
def q75 : Rat := mkRat 75 100

/-- `VideoPlayer.onTimeUpdate()`: guard against an unknown/zero
duration, compute `progress = currentTime / duration`, then walk the
`if / else if` chain over the quartile thresholds in ascending order. -/
def onTimeUpdate (sys : SystemState) (currentTime duration : Rat)
    (env : PageEnv) (rng : RandomDraws) (o : DispatchOutcome) :
    SystemState × List String :=
  match sys.player.trackingURLs with
  | none => (sys, [])
  | some catalog =>
    if duration == 0 then (sys, [])
    else
      let progress := ratDiv currentTime duration
      let q := sys.player.quartilesFired
      if progress ≥ q25 && !q.firstQuartile then
        let r := fireEventTrackers sys.tracker "firstQuartile" catalog.tracking
          emptyContext env rng o
        ({ player := { sys.player with quartilesFired := { q with firstQuartile := true } },
           tracker := r.1 },
         ["firstQuartile"])
      else if progress ≥ q50 && !q.midpoint then
        let r := fireEventTrackers sys.tracker "midpoint" catalog.tracking
          emptyContext env rng o
        ({ player := { sys.player with quartilesFired := { q with midpoint := true } },
           tracker := r.1 },
         ["midpoint"])
      else if progress ≥ q75 && !q.thirdQuartile then
        let r := fireEventTrackers sys.tracker "thirdQuartile" catalog.tracking
          emptyContext env rng o
        ({ player := { sys.player with quartilesFired := { q with thirdQuartile := true } },
           tracker := r.1 },
         ["thirdQuartile"])
      else (sys, [])

/-- `VideoPlayer.onVolumeChange()`: fire `mute` or `unmute`, unguarded,
according to the muted flag. -/
def onVolumeChange (sys : SystemState) (muted : Bool) (env : PageEnv)
    (rng : RandomDraws) (o : DispatchOutcome) : SystemState × List String :=
  match sys.player.trackingURLs with
  | none => (sys, [])
  | some catalog =>
    if muted then
      let r := fireEventTrackers sys.tracker "mute" catalog.tracking
        emptyContext env rng o
      ({ player := sys.player, tracker := r.1 }, ["mute"])
    else
      let r := fireEventTrackers sys.tracker "unmute" catalog.tracking
        emptyContext env rng o
      ({ player := sys.player, tracker := r.1 }, ["unmute"])

/-- `VideoPlayer.reset()`: clear the model and the one-shot flags. -/
def resetPlayer (_p : PlayerState) : PlayerState :=
  { vastData := none, trackingURLs := none, quartilesFired := initQuartiles }

/-- Reset of player and Firing Ledger together (`VideoPlayer.reset()`
plus `Tracker.reset()`), as a reload performs before `loadAd`. -/
def resetSystem (sys : SystemState) : SystemState :=
  { player := resetPlayer sys.player, tracker := trackerReset sys.tracker }

/-- One discrete playback telemetry event. -/
inductive PlaybackSignal where
  | play
  | timeupdate (currentTime duration : Rat)
  | pauseSignal (ended : Bool)
  | endedSignal
  | volumechange (muted : Bool)
deriving DecidableEq, Repr

/-- Dispatch one telemetry event to its handler. -/
def stepSignal (sys : SystemState) (sig : PlaybackSignal) (env : PageEnv)
    (rng : RandomDraws) (o : DispatchOutcome) : SystemState × List String :=
  match sig with
  | .play => onPlay sys env rng o
  | .timeupdate currentTime duration => onTimeUpdate sys currentTime duration env rng o
  | .pauseSignal ended => onPause sys ended env rng o
  | .endedSignal => onEnded sys env rng o
  | .volumechange muted => onVolumeChange sys muted env rng o

/-- Run a telemetry stream, collecting the fired lifecycle events in
order. -/
def runSignals (sys : SystemState) (sigs : List PlaybackSignal) (env : PageEnv)
    (rng : RandomDraws) (o : DispatchOutcome) : SystemState × List String :=
  sigs.foldl
    (fun acc sig =>
      let r := stepSignal acc.1 sig env rng o
      (r.1, acc.2 ++ r.2))
    (sys, [])

/-! ## Control-Channel Bridge (`SIMIDBridge`, src/vast-parser.js)

`onMessage` parses `event.data` (a parse failure or empty payload is
modelled as `none`), then rejects any message that lacks a truthy
`type` or `sessionId` or whose `sessionId` differs from the session's,
and finally dispatches through the fixed `messageHandlers` table.
`handleRequestSkip` calls `this.tracker.fireTracking(...)`, a method
that does not exist on `Tracker`; reaching that call throws a
`TypeError`, modelled as the `Except.error` result. -/

/-- A decoded inbound control-channel message. -/
structure SIMIDMessage where
  sessionId : Option String := none
  messageId : Option String := none
  mtype : Option String := none
  argVolume : Option Rat := none
  argTrackingUrls : Option (List String) := none
deriving DecidableEq, Repr

/-- An outbound message, reduced to its type and the `messageId` it
acknowledges. -/
structure OutMessage where
  mtype : String
  inReplyTo : Option String
deriving DecidableEq, Repr

/-- The media surface as the bridge commands and snapshots it. -/
structure BridgeVideo where
  currentTime : Rat
  duration : Rat
  muted : Bool
  volume : Rat
  paused : Bool
  ended : Bool
deriving DecidableEq, Repr

/-- The state owned by one `SIMIDBridge` instance, together with its
observable effects (messages posted to the creative, URLs handed to
`tracker.sendTracking`). -/
structure BridgeState where
  sessionId : String
  isInitialized : Bool
  video : BridgeVideo
  trackingURLs : Option TrackingURLs
  dispatched : List String
  sent : List OutMessage
deriving DecidableEq, Repr

/-- JavaScript truthiness test for an optional string field
(`!data.type`, `!data.sessionId`). -/
def falsyStr (o : Option String) : Bool :=
  match o with
  | none => true
  | some s => s == ""

/-- `SIMIDBridge.sendResolve(messageId, value)`. -/
def sendResolve (bs : BridgeState) (inReplyTo : Option String) : BridgeState :=
  { bs with sent := { mtype := "resolve", inReplyTo := inReplyTo } :: bs.sent }

/-- `SIMIDBridge.onMessage(event)`. -/
def onMessage (bs : BridgeState) (event : Option SIMIDMessage) :
    Except String BridgeState :=
  match event with
  | none => .ok bs
  | some data =>
    if falsyStr data.mtype || falsyStr data.sessionId
        || !(data.sessionId == some bs.sessionId) then
      .ok bs
    else
      match data.mtype.getD "" with
      | "Session.creativeLoaded" =>
        .ok (sendResolve { bs with isInitialized := true } data.messageId)
      | "Session.init" => .ok (sendResolve bs data.messageId)
      | "Session.start" => .ok (sendResolve bs data.messageId)
      | "Session.stop" => .ok (sendResolve bs data.messageId)
      | "Session.skip" => .ok (sendResolve bs data.messageId)
      | "Session.fatal" => .ok (sendResolve bs data.messageId)
      | "Creative.reportTracking" =>
        let bs1 :=
          match data.argTrackingUrls with
          | some urls => { bs with dispatched := bs.dispatched ++ urls }
          | none => bs
        .ok (sendResolve bs1 data.messageId)
      | "Creative.requestChangeVolume" =>
        let bs1 :=
          match data.argVolume with
          | some v =>
            if 0 ≤ v ∧ v ≤ 1 then { bs with video := { bs.video with volume := v } }
            else bs
          | none => bs
        .ok (sendResolve bs1 data.messageId)
      | "Creative.requestPause" =>
        .ok (sendResolve { bs with video := { bs.video with paused := true } }
          data.messageId)
      | "Creative.requestPlay" =>
        .ok (sendResolve { bs with video := { bs.video with paused := false } }
          data.messageId)
      | "Creative.requestSkip" =>
        match bs.trackingURLs with
        | some catalog =>
          match catalog.tracking.find? (fun t => t.event == "complete") with
          | some _ => .error "this.tracker.fireTracking is not a function"
          | none => .ok (sendResolve bs data.messageId)
        | none => .ok (sendResolve bs data.messageId)
      | "Creative.getMediaState" => .ok (sendResolve bs data.messageId)
      | _ => .ok bs

/-! ## Claim theorems -/

/-- The number of log entries recording a successful firing of the raw
URL `u`. -/
def rawCount (st : TrackerState) (u : String) : Nat :=
  (st.trackingLog.filter (fun r => r.originalURL == some u)).length

/-- The ledger invariant: at most one record per raw URL, and none for a
URL that is not marked fired. -/
def ledgerInv (st : TrackerState) : Prop :=
  ∀ u : String, rawCount st u ≤ 1 ∧
    (st.firedTrackers.contains u = false → rawCount st u = 0)

theorem ledgerInv_init : ledgerInv initTracker := by
  intro u
  constructor <;> simp [rawCount, initTracker]

theorem fireTracker_skip (st : TrackerState) (url ttype : String)
    (event : Option String) (ctx : MacroContext) (env : PageEnv)
    (rng : RandomDraws) (o : DispatchOutcome)
    (h : (url == "" || st.firedTrackers.contains url) = true) :
    fireTracker st url ttype event ctx env rng o = (false, st, []) := by
  simp only [fireTracker, h, if_true]

theorem fireTracker_preserves_inv (st : TrackerState) (url ttype : String)
    (event : Option String) (ctx : MacroContext) (env : PageEnv)
    (rng : RandomDraws) (o : DispatchOutcome) (hinv : ledgerInv st) :
    ledgerInv (fireTracker st url ttype event ctx env rng o).2.1 := by
  by_cases hc : (url == "" || st.firedTrackers.contains url) = true
  · rw [fireTracker_skip st url ttype event ctx env rng o hc]
    exact hinv
  · have hc2 : (url == "" || st.firedTrackers.contains url) = false := by
      cases h : (url == "" || st.firedTrackers.contains url)
      · rfl
      · exact absurd h hc
    simp only [Bool.or_eq_false_iff] at hc2
    have hnotfired : st.firedTrackers.contains url = false := hc2.2
    simp only [fireTracker, hc2.1, hnotfired, Bool.or_self, Bool.false_eq_true, if_false]
    cases o <;>
    · simp only [sendTracking]
      intro u
      by_cases hu : u = url
      · subst hu
        have h0 : rawCount st u = 0 := (hinv u).2 hnotfired
        constructor
        · simp only [rawCount, List.filter_cons]
          rw [if_pos (by simp)]
          simp only [List.length_cons]
          simp only [rawCount] at h0
          omega
        · intro habs
          simp [List.contains_cons] at habs
      · have hne : (some url == some u) = false := by
          simp
          exact fun he => hu he.symm
        have : rawCount
            { firedTrackers := url :: st.firedTrackers,
              trackingLog :=
                { url := replaceMacros url ctx env rng, originalURL := some url,
                  ttype := ttype, event := event, status := .success,
                  errorMessage := none } :: st.trackingLog } u = rawCount st u := by
          simp [rawCount, List.filter, hne]
        constructor
        · rw [this]; exact (hinv u).1
        · intro hnc
          rw [this]
          apply (hinv u).2
          simp only [List.contains_cons, Bool.or_eq_false_iff] at hnc
          exact hnc.2

theorem foldl_fire_state {α : Type} (F : TrackerState → α → Bool × TrackerState × List String) :
    ∀ (l : List α) (st : TrackerState) (out : List String),
      (l.foldl (fun acc x => (((F acc.1 x).2.1 : TrackerState), acc.2 ++ (F acc.1 x).2.2))
          (st, out)).1 =
        l.foldl (fun s x => (F s x).2.1) st := by
  intro l
  induction l with
  | nil => intro st out; rfl
  | cons a l2 ih =>
    intro st out
    simp only [List.foldl_cons]
    exact ih _ _

theorem foldl_state_preserves_inv {α : Type}
    (F : TrackerState → α → Bool × TrackerState × List String)
    (hF : ∀ st a, ledgerInv st → ledgerInv (F st a).2.1) :
    ∀ (l : List α) (st : TrackerState), ledgerInv st →
      ledgerInv (l.foldl (fun s x => (F s x).2.1) st) := by
  intro l
  induction l with
  | nil => intro st h; exact h
  | cons a l2 ih =>
    intro st h
    simp only [List.foldl_cons]
    exact ih _ (hF st a h)

theorem fireImpressions_preserves_inv (st : TrackerState) (urls : List Impression)
    (ctx : MacroContext) (env : PageEnv) (rng : RandomDraws) (o : DispatchOutcome)
    (h : ledgerInv st) : ledgerInv (fireImpressions st urls ctx env rng o).1 := by
  have e := foldl_fire_state
    (fun s (imp : Impression) => fireTracker s imp.url "impression" none ctx env rng o)
    urls st []
  simp only [fireImpressions]
  rw [e]
  exact foldl_state_preserves_inv _
    (fun s imp hh => fireTracker_preserves_inv s imp.url "impression" none ctx env rng o hh)
    urls st h

theorem fireClicks_preserves_inv (st : TrackerState) (urls : List ClickEntry)
    (ctx : MacroContext) (env : PageEnv) (rng : RandomDraws) (o : DispatchOutcome)
    (h : ledgerInv st) : ledgerInv (fireClicks st urls ctx env rng o).1 := by
  have e := foldl_fire_state
    (fun s (click : ClickEntry) =>
      fireTracker s click.url "click" (jsOrNull click.ctype) ctx env rng o)
    urls st []
  simp only [fireClicks]
  rw [e]
  exact foldl_state_preserves_inv _
    (fun s click hh =>
      fireTracker_preserves_inv s click.url "click" (jsOrNull click.ctype) ctx env rng o hh)
    urls st h

theorem fireEventTrackers_preserves_inv (st : TrackerState) (event : String)
    (trackingURLs : List TrackingEntry) (ctx : MacroContext) (env : PageEnv)
    (rng : RandomDraws) (o : DispatchOutcome) (h : ledgerInv st) :
    ledgerInv (fireEventTrackers st event trackingURLs ctx env rng o).1 := by
  have e := foldl_fire_state
    (fun s (t : TrackingEntry) => fireTracker s t.url "event" (some event) ctx env rng o)
    (trackingURLs.filter (fun t => t.event == event)) st []
  simp only [fireEventTrackers]
  rw [e]
  exact foldl_state_preserves_inv _
    (fun s t hh => fireTracker_preserves_inv s t.url "event" (some event) ctx env rng o hh)
    _ st h

/-- One call into the Firing Ledger, as issued by the lifecycle machine
or the control-channel bridge. -/
inductive TrackerOp where
  | fire (url ttype : String) (event : Option String)
  | impressions (urls : List Impression)
  | clicks (urls : List ClickEntry)
  | events (event : String) (trackingURLs : List TrackingEntry)

/-- Apply one ledger operation. -/
def applyOp (st : TrackerState) (op : TrackerOp) (ctx : MacroContext)
    (env : PageEnv) (rng : RandomDraws) (o : DispatchOutcome) : TrackerState :=
  match op with
  | .fire url ttype event => (fireTracker st url ttype event ctx env rng o).2.1
  | .impressions urls => (fireImpressions st urls ctx env rng o).1
  | .clicks urls => (fireClicks st urls ctx env rng o).1
  | .events event trackingURLs => (fireEventTrackers st event trackingURLs ctx env rng o).1

/-- A whole run of ledger operations over one loaded ad. -/
def runOps (st : TrackerState) (ops : List TrackerOp) (ctx : MacroContext)
    (env : PageEnv) (rng : RandomDraws) (o : DispatchOutcome) : TrackerState :=
  ops.foldl (fun s op => applyOp s op ctx env rng o) st

theorem applyOp_preserves_inv (st : TrackerState) (op : TrackerOp)
    (ctx : MacroContext) (env : PageEnv) (rng : RandomDraws) (o : DispatchOutcome)
    (h : ledgerInv st) : ledgerInv (applyOp st op ctx env rng o) := by
  cases op with
  | fire url ttype event => exact fireTracker_preserves_inv st url ttype event ctx env rng o h
  | impressions urls => exact fireImpressions_preserves_inv st urls ctx env rng o h
  | clicks urls => exact fireClicks_preserves_inv st urls ctx env rng o h
  | events event trackingURLs =>
    exact fireEventTrackers_preserves_inv st event trackingURLs ctx env rng o h

theorem runOps_preserves_inv (ops : List TrackerOp) (st : TrackerState)
    (ctx : MacroContext) (env : PageEnv) (rng : RandomDraws) (o : DispatchOutcome)
    (h : ledgerInv st) : ledgerInv (runOps st ops ctx env rng o) := by
  induction ops generalizing st with
  | nil => exact h
  | cons op ops2 ih =>
    simp only [runOps, List.foldl_cons]
    exact ih _ (applyOp_preserves_inv st op ctx env rng o h)

/-- Claim C1: a raw URL already recorded as fired is refused by
`Tracker.fireTracker` — it returns `false`, dispatches nothing and
appends no `FiringRecord` — and consequently a whole run of ledger
operations from a fresh tracker produces at most one `FiringRecord` per
raw URL string, whatever categories reference it. -/
theorem fireTracker_at_most_once_per_raw_url :
    (∀ (st : TrackerState) (url ttype : String) (event : Option String)
        (ctx : MacroContext) (env : PageEnv) (rng : RandomDraws) (o : DispatchOutcome),
      st.firedTrackers.contains url = true →
      fireTracker st url ttype event ctx env rng o = (false, st, [])) ∧
    (∀ (ops : List TrackerOp) (ctx : MacroContext) (env : PageEnv)
        (rng : RandomDraws) (o : DispatchOutcome) (u : String),
      rawCount (runOps initTracker ops ctx env rng o) u ≤ 1) := by
  constructor
  · intro st url ttype event ctx env rng o h
    refine fireTracker_skip st url ttype event ctx env rng o ?_
    have hm : url ∈ st.firedTrackers := by simpa using h
    simp [hm]
  · intro ops ctx env rng o u
    exact (runOps_preserves_inv ops initTracker ctx env rng o ledgerInv_init u).1

theorem fireTracker_at_most_once_per_raw_url_witness :
    (({ firedTrackers := ["https://ad.example/imp"], trackingLog := [] } :
        TrackerState).firedTrackers.contains "https://ad.example/imp" = true ∧
      fireTracker { firedTrackers := ["https://ad.example/imp"], trackingLog := [] }
          "https://ad.example/imp" "impression" none emptyContext {} {} .imageLoaded =
        (false, { firedTrackers := ["https://ad.example/imp"], trackingLog := [] }, [])) ∧
    rawCount
      (runOps initTracker
        [.impressions [{ url := "https://ad.example/u", id := none }],
         .events "start" [{ event := "start", url := "https://ad.example/u", fired := false }]]
        emptyContext {} {} .imageLoaded) "https://ad.example/u" ≤ 1 :=
  ⟨⟨by decide,
    fireTracker_at_most_once_per_raw_url.1
      { firedTrackers := ["https://ad.example/imp"], trackingLog := [] }
      "https://ad.example/imp" "impression" none emptyContext {} {} .imageLoaded
      (by decide)⟩,
   fireTracker_at_most_once_per_raw_url.2
     [.impressions [{ url := "https://ad.example/u", id := none }],
      .events "start" [{ event := "start", url := "https://ad.example/u", fired := false }]]
     emptyContext {} {} .imageLoaded "https://ad.example/u"⟩

/-- Claim C10: `Tracker.sendTracking` resolves successfully on image
load, on image error and after the timeout — it never rejects — so for
a non-empty, not-yet-fired URL `fireTracker`'s failure branch is
unreachable: the call returns `true` and the one record it appends has
status `success`. -/
theorem sendTracking_never_rejects :
    (∀ o : DispatchOutcome, sendTracking o = .ok true) ∧
    (∀ (st : TrackerState) (url ttype : String) (event : Option String)
        (ctx : MacroContext) (env : PageEnv) (rng : RandomDraws) (o : DispatchOutcome),
      url ≠ "" → st.firedTrackers.contains url = false →
      fireTracker st url ttype event ctx env rng o =
        (true,
          { firedTrackers := url :: st.firedTrackers,
            trackingLog :=
              { url := replaceMacros url ctx env rng, originalURL := some url,
                ttype := ttype, event := event, status := .success,
                errorMessage := none } :: st.trackingLog },
          [replaceMacros url ctx env rng])) := by
  constructor
  · intro o; cases o <;> rfl
  · intro st url ttype event ctx env rng o hne hnc
    have hcond : (url == "" || st.firedTrackers.contains url) = false := by
      simp only [Bool.or_eq_false_iff, hnc]
      constructor
      · simpa using hne
      · trivial
    simp only [fireTracker, hcond, Bool.false_eq_true, if_false]
    cases o <;> rfl

theorem sendTracking_never_rejects_witness :
    ("https://ad.example/pixel" ≠ "" ∧
      (initTracker.firedTrackers.contains "https://ad.example/pixel" = false)) ∧
    fireTracker initTracker "https://ad.example/pixel" "impression" none
        emptyContext {} {} .imageErrored =
      (true,
        { firedTrackers := ["https://ad.example/pixel"],
          trackingLog :=
            [{ url := replaceMacros "https://ad.example/pixel" emptyContext {} {},
               originalURL := some "https://ad.example/pixel",
               ttype := "impression", event := none, status := .success,
               errorMessage := none }] },
        [replaceMacros "https://ad.example/pixel" emptyContext {} {}]) :=
  ⟨⟨by decide, by decide⟩,
    sendTracking_never_rejects.2 initTracker "https://ad.example/pixel" "impression"
      none emptyContext {} {} .imageErrored (by decide) (by decide)⟩

/-- Claim C7: on a loaded ad, a pause transition fires the `pause`
tracking event iff the media had not ended (`this.video.ended` false);
a pause caused by natural completion changes nothing and fires nothing,
and the completion transition itself fires only `complete` (guarded by
its one-shot flag). -/
theorem pause_only_when_not_completed :
    ∀ (sys : SystemState) (catalog : TrackingURLs) (ended : Bool)
      (env : PageEnv) (rng : RandomDraws) (o : DispatchOutcome),
      sys.player.trackingURLs = some catalog →
      (("pause" ∈ (onPause sys ended env rng o).2) ↔ ended = false) ∧
      onPause sys true env rng o = (sys, []) ∧
      ((onPause sys true env rng o).2 ++
          (onEnded (onPause sys true env rng o).1 env rng o).2 =
        if sys.player.quartilesFired.complete then [] else ["complete"]) := by
  intro sys catalog ended env rng o h
  refine ⟨?_, ?_, ?_⟩
  · cases ended <;> simp [onPause, h]
  · simp [onPause, h]
  · simp only [onPause, h]
    simp only [Bool.not_true, Bool.false_eq_true, if_false]
    simp only [onEnded, h]
    by_cases hc : sys.player.quartilesFired.complete
    · simp [hc]
    · simp [hc]

/-- The empty tracking catalog, for witnesses. -/
def emptyCatalog : TrackingURLs :=
  { impressions := [], clicks := [], tracking := [], errors := [] }

/-- A loaded-but-untouched system over the empty catalog, for witnesses. -/
def sysEmptyLoaded : SystemState :=
  { player := { vastData := none, trackingURLs := some emptyCatalog,
                quartilesFired := initQuartiles },
    tracker := initTracker }

theorem pause_only_when_not_completed_witness :
    sysEmptyLoaded.player.trackingURLs = some emptyCatalog ∧
    (("pause" ∈ (onPause sysEmptyLoaded false {} {} .imageLoaded).2) ↔ false = false) :=
  ⟨rfl, (pause_only_when_not_completed sysEmptyLoaded emptyCatalog false {} {}
    .imageLoaded rfl).1⟩

/-- Claim C8: resetting the player and the Firing Ledger restores the
initial state exactly — all one-shot lifecycle flags false, the set of
fired raw URLs empty — so re-loading the same ad model and then playing
behaves exactly as on the first load: the same impressions are fired by
`loadAd` and `start` fires again on play. -/
theorem reset_reload_restores_initial :
    ∀ (sys : SystemState) (vd : VastData) (catalog : TrackingURLs)
      (canPlay : String → Bool) (env : PageEnv) (rng : RandomDraws) (o : DispatchOutcome),
      resetSystem sys = initialSystem ∧
      (resetSystem sys).player.quartilesFired = initQuartiles ∧
      (resetSystem sys).tracker.firedTrackers = [] ∧
      loadAd (resetSystem sys) vd catalog canPlay env rng o =
        loadAd initialSystem vd catalog canPlay env rng o ∧
      onPlay (loadAd (resetSystem sys) vd catalog canPlay env rng o).1 env rng o =
        onPlay (loadAd initialSystem vd catalog canPlay env rng o).1 env rng o := by
  intro sys vd catalog canPlay env rng o
  exact ⟨rfl, rfl, rfl, rfl, rfl⟩

/-- Claim C9: `SIMIDBridge.onMessage` ignores every message that lacks a
truthy `type` or `sessionId`, or whose `sessionId` is not the current
session's: no handler runs, nothing is sent, and the bridge state is
returned bit-for-bit unchanged. -/
theorem bridge_ignores_foreign_session :
    ∀ (bs : BridgeState) (data : SIMIDMessage),
      (falsyStr data.mtype = true ∨ falsyStr data.sessionId = true ∨
        data.sessionId ≠ some bs.sessionId) →
      onMessage bs (some data) = .ok bs := by
  intro bs data h
  have hcond : (falsyStr data.mtype || falsyStr data.sessionId
      || !(data.sessionId == some bs.sessionId)) = true := by
    rcases h with h | h | h
    · simp [h]
    · simp [h]
    · simp [h]
  simp only [onMessage, hcond, if_true]

/-- A concrete bridge state, for witnesses. -/
def bridgeW : BridgeState :=
  { sessionId := "simid_mine_7", isInitialized := false,
    video := { currentTime := 0, duration := 30, muted := false,
               volume := 1, paused := true, ended := false },
    trackingURLs := none, dispatched := [], sent := [] }

/-- A message carrying a foreign session id, for witnesses. -/
def foreignMsg : SIMIDMessage :=
  { sessionId := some "simid_other_1", messageId := some "msg_1",
    mtype := some "Creative.requestPause" }

theorem bridge_ignores_foreign_session_witness :
    (falsyStr foreignMsg.mtype = true ∨ falsyStr foreignMsg.sessionId = true ∨
      foreignMsg.sessionId ≠ some bridgeW.sessionId) ∧
    onMessage bridgeW (some foreignMsg) = .ok bridgeW :=
  ⟨by decide, bridge_ignores_foreign_session bridgeW foreignMsg (by decide)⟩

/-- A plain progressive-mp4 media file, as extracted by the parser. -/
def mp4File : MediaFile :=
  parseMediaFile { mtype := some "video/mp4", url := "https://cdn.example/ad.mp4" }

/-- A SIMID interactive media file, as extracted by the parser. -/
def simidFile : MediaFile :=
  parseMediaFile { apiFramework := some "SIMID-1.1", mtype := some "text/html",
                   url := "https://cdn.example/simid.html" }

/-- A legacy Flash media file, as extracted by the parser. -/
def swfFile : MediaFile :=
  parseMediaFile { mtype := some "application/x-shockwave-flash",
                   url := "https://cdn.example/ad.swf" }

/-- Claim C6: extraction-time classification sets the legacy
requires-external-runtime flag (`isVPAID`) exactly on an exact `VPAID`
capability tag or a legacy executable mime type, and the is-interactive
flag exactly on a capability tag containing `simid` case-insensitively;
concretely, `"SIMID-1.1"` is interactive, `application/x-shockwave-flash`
requires an external runtime, and the SIMID-aware media selection picks
the interactive file when a non-interactive one is also present. -/
theorem media_classification_and_selection :
    (∀ mf : RawMediaFileAttrs,
      ((parseMediaFile mf).isVPAID = true ↔
        (mf.apiFramework = some "VPAID" ∨
          jsOrNull mf.mtype = some "application/x-shockwave-flash" ∨
          jsOrNull mf.mtype = some "application/javascript")) ∧
      ((parseMediaFile mf).isInteractive = true ↔
        (∃ s, jsOrNull mf.apiFramework = some s ∧ ciOccurs "simid".data s.data = true))) ∧
    simidFile.isInteractive = true ∧
    swfFile.isVPAID = true ∧
    (∀ canPlay : String → Bool,
      selectMediaFileSIMID canPlay [mp4File, simidFile] = some simidFile) := by
  refine ⟨?_, by decide, by decide, fun canPlay => rfl⟩
  intro mf
  constructor
  · simp [parseMediaFile]
    tauto
  · simp only [parseMediaFile, isInteractiveTag]
    rcases ha : jsOrNull mf.apiFramework with _ | s <;> simp [ha]

/-- The tracking catalog used by the lifecycle scenarios: one URL per
lifecycle event, no impressions. -/
def catalogC3 : TrackingURLs :=
  { impressions := [],
    clicks := [],
    tracking :=
      [ { event := "start", url := "https://t.example/start", fired := false },
        { event := "firstQuartile", url := "https://t.example/q1", fired := false },
        { event := "midpoint", url := "https://t.example/q2", fired := false },
        { event := "thirdQuartile", url := "https://t.example/q3", fired := false },
        { event := "complete", url := "https://t.example/q4", fired := false } ],
    errors := [] }

/-- A one-ad inline linear document whose only media file is `mp4File`. -/
def vastC3 : VastData :=
  { ads := [ { id := "ad-0", adType := some "inline",
               inlineData := some
                 { adTitle := some "Test Ad",
                   creatives := [ { id := some "c1", ctype := some "linear",
                                    data := some { duration := some "00:00:10",
                                                   mediaFiles := [mp4File] } } ] } } ] }

/-- Claim C3: loading the one-linear-ad model and driving it with a play
event, position updates at 0%, 10%, 26%, 51%, 76%, 100% of the duration
and an ended event fires exactly `start`, `firstQuartile`, `midpoint`,
`thirdQuartile`, `complete`, in that order, each once — both as the
handler branches taken and in the Firing Ledger's audit log. -/
theorem lifecycle_event_sequence :
    (runSignals (loadAd initialSystem vastC3 catalogC3 (fun _ => true) {} {} .imageLoaded).1
        [.play, .timeupdate 0 100, .timeupdate 10 100, .timeupdate 26 100,
         .timeupdate 51 100, .timeupdate 76 100, .timeupdate 100 100, .endedSignal]
        {} {} .imageLoaded).2 =
      ["start", "firstQuartile", "midpoint", "thirdQuartile", "complete"] ∧
    ((runSignals (loadAd initialSystem vastC3 catalogC3 (fun _ => true) {} {} .imageLoaded).1
        [.play, .timeupdate 0 100, .timeupdate 10 100, .timeupdate 26 100,
         .timeupdate 51 100, .timeupdate 76 100, .timeupdate 100 100, .endedSignal]
        {} {} .imageLoaded).1.tracker.trackingLog.reverse.map (fun r => r.event)) =
      [some "start", some "firstQuartile", some "midpoint", some "thirdQuartile",
       some "complete"] := by
  decide

/-- The state right after `start` has fired at position 0: all quartile
flags still clear. -/
def sysAfterStart : SystemState :=
  { player := { vastData := none, trackingURLs := some catalogC3,
                quartilesFired := { start := true, firstQuartile := false,
                                    midpoint := false, thirdQuartile := false,
                                    complete := false } },
    tracker := initTracker }

/-- Claim C2 counterexample: after `start`, a position jump from 0% to
80% makes `onTimeUpdate` fire `firstQuartile` — not `thirdQuartile` as
the claim states — because the `if / else if` chain tests thresholds in
ascending order against the unfired flags. -/
theorem quartile_seek_counterexample :
    (onTimeUpdate sysAfterStart 80 100 {} {} .imageLoaded).2 ≠ ["thirdQuartile"] ∧
    (onTimeUpdate sysAfterStart 80 100 {} {} .imageLoaded).2 = ["firstQuartile"] := by
  decide

/-- The amended seek policy, stated from the corrected spec wording: an
update fires the single *lowest* quartile threshold that is reached and
still unfired, never more than one per update. -/
def lowestUnfiredReached (q : QuartilesFired) (progress : Rat) : List String :=
  if ¬q.firstQuartile ∧ q25 ≤ progress then ["firstQuartile"]
  else if ¬q.midpoint ∧ q50 ≤ progress then ["midpoint"]
  else if ¬q.thirdQuartile ∧ q75 ≤ progress then ["thirdQuartile"]
  else []

/-- Claim C2 (amended): on every position update with a known non-zero
duration, quartile evaluation fires exactly the single lowest unfired
threshold reached by the current progress (so a 0% → 80% jump after
start fires only `firstQuartile`), and never more than one event per
update. -/
theorem quartile_fires_lowest_unfired :
    ∀ (sys : SystemState) (catalog : TrackingURLs) (currentTime duration : Rat)
      (env : PageEnv) (rng : RandomDraws) (o : DispatchOutcome),
      sys.player.trackingURLs = some catalog → duration ≠ 0 →
      (onTimeUpdate sys currentTime duration env rng o).2 =
        lowestUnfiredReached sys.player.quartilesFired (ratDiv currentTime duration) ∧
      (onTimeUpdate sys currentTime duration env rng o).2.length ≤ 1 := by
  intro sys catalog ct d env rng o h hd
  have hd2 : (d == 0) = false := by simpa using hd
  have main : (onTimeUpdate sys ct d env rng o).2 =
      lowestUnfiredReached sys.player.quartilesFired (ratDiv ct d) := by
    simp only [onTimeUpdate, h, hd2, Bool.false_eq_true, if_false, lowestUnfiredReached]
    by_cases h1 : q25 ≤ ratDiv ct d <;>
    by_cases h2 : q50 ≤ ratDiv ct d <;>
    by_cases h3 : q75 ≤ ratDiv ct d <;>
    by_cases f1 : sys.player.quartilesFired.firstQuartile <;>
    by_cases f2 : sys.player.quartilesFired.midpoint <;>
    by_cases f3 : sys.player.quartilesFired.thirdQuartile <;>
      simp [h1, h2, h3, f1, f2, f3, ge_iff_le]
  refine ⟨main, ?_⟩
  rw [main]
  unfold lowestUnfiredReached
  split_ifs <;> simp

theorem quartile_fires_lowest_unfired_witness :
    (sysAfterStart.player.trackingURLs = some catalogC3 ∧ (100 : Rat) ≠ 0) ∧
    ((onTimeUpdate sysAfterStart 80 100 {} {} .imageLoaded).2 =
        lowestUnfiredReached sysAfterStart.player.quartilesFired (ratDiv 80 100) ∧
      (onTimeUpdate sysAfterStart 80 100 {} {} .imageLoaded).2.length ≤ 1) :=
  ⟨⟨rfl, by decide⟩,
    quartile_fires_lowest_unfired sysAfterStart catalogC3 80 100 {} {} .imageLoaded
      rfl (by decide)⟩

theorem replaceAllCI_noLB_head (pat v s : List Char) (hp : pat.head? = some '[')
    (h : noLB s = true) : replaceAllCI pat v s = s := by
  cases pat with
  | nil => simp at hp
  | cons c ps =>
    have hc : c = '[' := by simpa using hp
    subst hc
    exact replaceAllCI_noLB v s h

theorem replaceAllCI_pass_shape (pat v u1 t1 u2 t2 u3 : List Char)
    (hp : pat.head? = some '[')
    (h1 : noLB u1 = true) (ht1 : noLB t1 = true) (h2 : noLB u2 = true)
    (ht2 : noLB t2 = true) (h3 : noLB u3 = true)
    (hm1 : ciMatchAt pat ('[' :: (t1 ++ (u2 ++ '[' :: (t2 ++ u3)))) = false)
    (hm2 : ciMatchAt pat ('[' :: (t2 ++ u3)) = false) :
    replaceAllCI pat v (u1 ++ '[' :: (t1 ++ (u2 ++ '[' :: (t2 ++ u3)))) =
      u1 ++ '[' :: (t1 ++ (u2 ++ '[' :: (t2 ++ u3))) := by
  cases pat with
  | nil => simp at hp
  | cons c ps =>
    have hc : c = '[' := by simpa using hp
    subst hc
    exact replaceAllCI_pass_two_tokens v u1 t1 u2 t2 u3 h1 ht1 h2 ht2 h3 hm1 hm2

theorem replaceAllCI_fire_shape (pat v u1 t1 u2 t2 u3 : List Char)
    (hp : pat.head? = some '[')
    (h1 : noLB u1 = true) (h2 : noLB u2 = true) (h3 : noLB u3 = true)
    (hl1 : t1.length + 1 = pat.length) (hl2 : t2.length + 1 = pat.length)
    (hm1 : ciMatchAt pat ('[' :: t1) = true)
    (hm2 : ciMatchAt pat ('[' :: t2) = true) :
    replaceAllCI pat v (u1 ++ '[' :: (t1 ++ (u2 ++ '[' :: (t2 ++ u3)))) =
      u1 ++ (v ++ (u2 ++ (v ++ u3))) := by
  cases pat with
  | nil => simp at hp
  | cons c ps =>
    have hc : c = '[' := by simpa using hp
    subst hc
    have hl1a : t1.length = ps.length := by
      simp only [List.length_cons] at hl1
      omega
    have hl2a : t2.length = ps.length := by
      simp only [List.length_cons] at hl2
      omega
    exact replaceAllCI_fire_two_tokens v u1 t1 u2 t2 u3 h1 h2 h3 hl1a hl2a hm1 hm2

/-- Folding a table of `[`-headed tokens over a bracket-free string
leaves it unchanged. -/
theorem foldl_replace_noLB :
    ∀ (table : List (List Char × List Char)) (s : List Char),
      (∀ mv ∈ table, mv.1.head? = some '[') → noLB s = true →
      table.foldl (fun acc mv => replaceAllCI mv.1 mv.2 acc) s = s := by
  intro table
  induction table with
  | nil => intro s _ _; rfl
  | cons mv rest ih =>
    intro s hh hs
    simp only [List.foldl_cons]
    rw [replaceAllCI_noLB_head mv.1 mv.2 s (hh mv (by simp)) hs]
    exact ih s (fun x hx => hh x (by simp [hx])) hs

/-- The macro table after its three fresh-number entries: every value
below is drawn from the call context or environment. -/
def macroTableTail (ctx : MacroContext) (env : PageEnv) (rng : RandomDraws) :
    List (List Char × List Char) :=
  [ ("[CONTENTPLAYHEAD]".data, (jsOr ctx.videoTime "00:00:00.000").data),
    ("[ASSETURI]".data, (jsOr ctx.assetURI "").data),
    ("[DEVICEID]".data, "".data),
    ("[DEVICEUA]".data, (encodeURIComponent (jsOrStr env.userAgent "")).data),
    ("[LIMITADTRACKING]".data, "0".data),
    ("[PLAYERNAME]".data, "VAST-Inspector".data),
    ("[PLAYERWIDTH]".data, (jsOr ctx.playerWidth "").data),
    ("[PLAYERHEIGHT]".data, (jsOr ctx.playerHeight "").data),
    ("[PLAYERSIZE]".data, (jsOr ctx.playerSize "").data),
    ("[RANDOM]".data, (Nat.repr rng.random).data),
    ("[PAGEURL]".data, (encodeURIComponent env.href).data),
    ("[DOMAIN]".data, (encodeURIComponent env.hostname).data) ]

theorem macroTable_split (ctx : MacroContext) (env : PageEnv) (rng : RandomDraws) :
    macroTable ctx env rng =
      ("[TIMESTAMP]".data, (Nat.repr rng.timestamp).data) ::
      ("[CACHEBUSTERS]".data, (Nat.repr rng.cacheBusters).data) ::
      ("[CACHEBUSTER]".data, (Nat.repr rng.cacheBuster).data) ::
      macroTableTail ctx env rng := rfl

theorem macroTableTail_heads (ctx : MacroContext) (env : PageEnv) (rng : RandomDraws) :
    ∀ mv ∈ macroTableTail ctx env rng, mv.1.head? = some '[' := by
  intro mv hmv
  simp only [macroTableTail, List.mem_cons, List.not_mem_nil, or_false] at hmv
  rcases hmv with rfl | rfl | rfl | rfl | rfl | rfl | rfl | rfl | rfl | rfl | rfl | rfl <;> rfl

/-- Whole-token form of the two-bracket pass lemma: the scanned token
matches at neither embedded token, so the string is unchanged. -/
theorem replaceAllCI_pass_shapeA (pat v u1 t1 u2 t2 u3 : List Char)
    (hp : pat.head? = some '[')
    (h1 : noLB u1 = true) (h2 : noLB u2 = true) (h3 : noLB u3 = true)
    (ht1 : t1.head? = some '[') (ht1b : noLB t1.tail = true)
    (ht2 : t2.head? = some '[') (ht2b : noLB t2.tail = true)
    (hm1 : ciMatchAt pat (t1 ++ (u2 ++ (t2 ++ u3))) = false)
    (hm2 : ciMatchAt pat (t2 ++ u3) = false) :
    replaceAllCI pat v (u1 ++ (t1 ++ (u2 ++ (t2 ++ u3)))) =
      u1 ++ (t1 ++ (u2 ++ (t2 ++ u3))) := by
  cases pat with
  | nil => simp at hp
  | cons c ps =>
    have hc : c = '[' := by simpa using hp
    subst hc
    cases t1 with
    | nil => simp at ht1
    | cons c1 t1x =>
      have hc1 : c1 = '[' := by simpa using ht1
      subst hc1
      cases t2 with
      | nil => simp at ht2
      | cons c2 t2x =>
        have hc2 : c2 = '[' := by simpa using ht2
        subst hc2
        show replaceAllCI ('[' :: ps) v
            (u1 ++ '[' :: (t1x ++ (u2 ++ '[' :: (t2x ++ u3)))) =
          u1 ++ '[' :: (t1x ++ (u2 ++ '[' :: (t2x ++ u3)))
        exact replaceAllCI_pass_two_tokens v u1 t1x u2 t2x u3 h1 ht1b h2 ht2b h3 hm1 hm2

/-- Whole-token form of the two-bracket fire lemma: the scanned token
matches both embedded tokens, each is replaced by the same value `v`. -/
theorem replaceAllCI_fire_shapeA (pat v u1 t1 u2 t2 u3 : List Char)
    (hp : pat.head? = some '[')
    (h1 : noLB u1 = true) (h2 : noLB u2 = true) (h3 : noLB u3 = true)
    (ht1 : t1.head? = some '[') (ht2 : t2.head? = some '[')
    (hl1 : t1.length = pat.length) (hl2 : t2.length = pat.length)
    (hm1 : ciMatchAt pat t1 = true) (hm2 : ciMatchAt pat t2 = true) :
    replaceAllCI pat v (u1 ++ (t1 ++ (u2 ++ (t2 ++ u3)))) =
      u1 ++ (v ++ (u2 ++ (v ++ u3))) := by
  cases pat with
  | nil => simp at hp
  | cons c ps =>
    have hc : c = '[' := by simpa using hp
    subst hc
    cases t1 with
    | nil => simp at ht1
    | cons c1 t1x =>
      have hc1 : c1 = '[' := by simpa using ht1
      subst hc1
      cases t2 with
      | nil => simp at ht2
      | cons c2 t2x =>
        have hc2 : c2 = '[' := by simpa using ht2
        subst hc2
        have hl1a : t1x.length = ps.length := by
          simp only [List.length_cons] at hl1
          omega
        have hl2a : t2x.length = ps.length := by
          simp only [List.length_cons] at hl2
          omega
        show replaceAllCI ('[' :: ps) v
            (u1 ++ '[' :: (t1x ++ (u2 ++ '[' :: (t2x ++ u3)))) =
          u1 ++ (v ++ (u2 ++ (v ++ u3)))
        exact replaceAllCI_fire_two_tokens v u1 t1x u2 t2x u3 h1 h2 h3 hl1a hl2a hm1 hm2

/-- Claim C4: one `replaceMacros` call matches its tokens
case-insensitively and substitutes every occurrence of the same token
with the same per-call value: a cache-buster placeholder written twice —
here once upper-case and once lower-case — resolves to the identical
number in both places. -/
theorem cachebuster_same_value_both_places :
    ∀ (u1 u2 u3 : String) (ctx : MacroContext) (env : PageEnv) (rng : RandomDraws),
      noLB u1.data = true → noLB u2.data = true → noLB u3.data = true →
      noLB (Nat.repr rng.cacheBuster).data = true →
      replaceMacros (u1 ++ "[CACHEBUSTER]" ++ u2 ++ "[cachebuster]" ++ u3) ctx env rng =
        u1 ++ Nat.repr rng.cacheBuster ++ u2 ++ Nat.repr rng.cacheBuster ++ u3 := by
  intro u1 u2 u3 ctx env rng h1 h2 h3 hv
  have hne : ((u1 ++ "[CACHEBUSTER]" ++ u2 ++ "[cachebuster]" ++ u3) == "") = false := by
    rw [beq_eq_false_iff_ne]
    intro he
    have hd := congrArg String.data he
    simp only [String.data_append, List.append_eq_nil] at hd
    have hx : ("[CACHEBUSTER]".data : List Char) ≠ [] := by decide
    exact hx hd.1.1.1.2
  simp only [replaceMacros, hne, Bool.false_eq_true, if_false]
  refine congrArg String.mk ?_
  rw [macroTable_split]
  simp only [String.data_append, List.append_assoc, List.foldl_cons]
  rw [replaceAllCI_pass_shapeA
      ['[', 'T', 'I', 'M', 'E', 'S', 'T', 'A', 'M', 'P', ']']
      (Nat.repr rng.timestamp).data
      u1.data
      ['[', 'C', 'A', 'C', 'H', 'E', 'B', 'U', 'S', 'T', 'E', 'R', ']']
      u2.data
      ['[', 'c', 'a', 'c', 'h', 'e', 'b', 'u', 's', 't', 'e', 'r', ']']
      u3.data
      (by decide) h1 h2 h3 (by decide) (by decide) (by decide) (by decide)
      (ciMatchAt_append_false
        ['[', 'C', 'A', 'C', 'H', 'E', 'B', 'U', 'S', 'T', 'E', 'R', ']']
        ['[', 'T', 'I', 'M', 'E', 'S', 'T', 'A', 'M', 'P', ']']
        (u2.data ++ (['[', 'c', 'a', 'c', 'h', 'e', 'b', 'u', 's', 't', 'e', 'r', ']'] ++ u3.data))
        (by decide))
      (ciMatchAt_append_false
        ['[', 'c', 'a', 'c', 'h', 'e', 'b', 'u', 's', 't', 'e', 'r', ']']
        ['[', 'T', 'I', 'M', 'E', 'S', 'T', 'A', 'M', 'P', ']']
        u3.data (by decide))]
  rw [replaceAllCI_pass_shapeA
      ['[', 'C', 'A', 'C', 'H', 'E', 'B', 'U', 'S', 'T', 'E', 'R', 'S', ']']
      (Nat.repr rng.cacheBusters).data
      u1.data
      ['[', 'C', 'A', 'C', 'H', 'E', 'B', 'U', 'S', 'T', 'E', 'R', ']']
      u2.data
      ['[', 'c', 'a', 'c', 'h', 'e', 'b', 'u', 's', 't', 'e', 'r', ']']
      u3.data
      (by decide) h1 h2 h3 (by decide) (by decide) (by decide) (by decide)
      (ciMatchAt_append_false
        ['[', 'C', 'A', 'C', 'H', 'E', 'B', 'U', 'S', 'T', 'E', 'R', ']']
        ['[', 'C', 'A', 'C', 'H', 'E', 'B', 'U', 'S', 'T', 'E', 'R', 'S', ']']
        (u2.data ++ (['[', 'c', 'a', 'c', 'h', 'e', 'b', 'u', 's', 't', 'e', 'r', ']'] ++ u3.data))
        (by decide))
      (ciMatchAt_append_false
        ['[', 'c', 'a', 'c', 'h', 'e', 'b', 'u', 's', 't', 'e', 'r', ']']
        ['[', 'C', 'A', 'C', 'H', 'E', 'B', 'U', 'S', 'T', 'E', 'R', 'S', ']']
        u3.data (by decide))]
  rw [replaceAllCI_fire_shapeA
      ['[', 'C', 'A', 'C', 'H', 'E', 'B', 'U', 'S', 'T', 'E', 'R', ']']
      (Nat.repr rng.cacheBuster).data
      u1.data
      ['[', 'C', 'A', 'C', 'H', 'E', 'B', 'U', 'S', 'T', 'E', 'R', ']']
      u2.data
      ['[', 'c', 'a', 'c', 'h', 'e', 'b', 'u', 's', 't', 'e', 'r', ']']
      u3.data
      (by decide) h1 h2 h3 (by decide) (by decide) (by decide) (by decide)
      (by decide) (by decide)]
  have hs : noLB (u1.data ++ ((Nat.repr rng.cacheBuster).data ++
      (u2.data ++ ((Nat.repr rng.cacheBuster).data ++ u3.data)))) = true := by
    simp only [noLB, List.all_append, Bool.and_eq_true]
    simp only [noLB] at h1 h2 h3 hv
    exact ⟨h1, hv, h2, hv, h3⟩
  exact foldl_replace_noLB (macroTableTail ctx env rng)
    (u1.data ++ ((Nat.repr rng.cacheBuster).data ++
      (u2.data ++ ((Nat.repr rng.cacheBuster).data ++ u3.data))))
    (macroTableTail_heads ctx env rng) hs

theorem cachebuster_same_value_both_places_witness :
    (noLB "https://t.example/p?cb=".data = true ∧ noLB "&r=".data = true ∧
      noLB "&v=1".data = true ∧
      noLB (Nat.repr (({ cacheBuster := 123456789 } : RandomDraws)).cacheBuster).data = true) ∧
    replaceMacros
        ("https://t.example/p?cb=" ++ "[CACHEBUSTER]" ++ "&r=" ++ "[cachebuster]" ++ "&v=1")
        emptyContext {} { cacheBuster := 123456789 } =
      "https://t.example/p?cb=" ++ Nat.repr 123456789 ++ "&r=" ++
        Nat.repr 123456789 ++ "&v=1" :=
  ⟨⟨by decide, by decide, by decide, by decide⟩,
    cachebuster_same_value_both_places "https://t.example/p?cb=" "&r=" "&v=1"
      emptyContext {} { cacheBuster := 123456789 }
      (by decide) (by decide) (by decide) (by decide)⟩

/-- Claim C5: a URL in which no recognized placeholder token occurs —
so every bracketed token it carries is unknown to the substitution
table — passes through `replaceMacros` completely unchanged: unknown
tokens are never expanded to the empty string and never raise. -/
theorem unknown_macros_pass_through :
    ∀ (url : String) (ctx : MacroContext) (env : PageEnv) (rng : RandomDraws),
      ((macroTable ctx env rng).all fun mv => !(ciOccurs mv.1 url.data)) = true →
      replaceMacros url ctx env rng = url := by
  intro url ctx env rng h
  by_cases hu : (url == "") = true
  · simp only [replaceMacros, hu, if_true]
  · have hu2 : (url == "") = false := by
      cases hx : (url == "") with
      | false => rfl
      | true => exact absurd hx hu
    simp only [replaceMacros, hu2, Bool.false_eq_true, if_false]
    exact congrArg String.mk (foldl_replace_of_no_occurs _ _ h)

theorem unknown_macros_pass_through_witness :
    ((macroTable emptyContext {} {}).all fun mv =>
      !(ciOccurs mv.1 "https://x.example/p?m=[UNKNOWNMACRO]&v=1".data)) = true ∧
    replaceMacros "https://x.example/p?m=[UNKNOWNMACRO]&v=1" emptyContext {} {} =
      "https://x.example/p?m=[UNKNOWNMACRO]&v=1" :=
  ⟨by decide,
    unknown_macros_pass_through "https://x.example/p?m=[UNKNOWNMACRO]&v=1"
      emptyContext {} {} (by decide)⟩
